import Mathlib

/-!
Verification of the ClickHouse/CSV LLM-analysis agent repository.

The development shallowly embeds the parts of the Python source that the
specification's claims are about:

* `src/python_sandbox.py` and `src/composite_agent/python_sandbox.py`
  (restricted builtins, stdout/stderr assembly),
* `src/composite_agent/clickhouse_client.py` (`execute_query` SELECT gate and
  LIMIT injection),
* `src/Julius_v2-main/csv_agent_api.py` (`_detect_separator`, the
  `analyze` retry loop, mutation detection in `execute_python_code`),
* `src/composite_agent/composite_agent.py` (the tool-dispatch loop),
* `src/composite_agent/chat_storage.py` (sliding window, expiry sweep).

Python strings are modelled as `List Char` (`Str` below).  Python `str.upper`
is modelled for the ASCII range, which is all the gate keywords use.
-/

namespace AgentCH

/-- Python strings modelled as lists of characters. -/
abbrev Str := List Char

/-- The characters stripped by Python `str.strip()`. -/
def isPySpace (c : Char) : Bool :=
  c = ' ' || c = '\t' || c = '\n' || c = '\r' || c = '\x0b' || c = '\x0c'

/-- Python `str.lstrip()`. -/
def pyStripLeft (s : Str) : Str := s.dropWhile isPySpace

/-- Python `str.rstrip()`. -/
def pyStripRight (s : Str) : Str := (s.reverse.dropWhile isPySpace).reverse

/-- Python `str.strip()`. -/
def pyStrip (s : Str) : Str := pyStripRight (pyStripLeft s)

/-- ASCII uppercasing of one character (Python `str.upper` restricted to
ASCII, which covers the SQL keywords the gate compares against). -/
def upperChar (c : Char) : Char :=
  if 'a' ≤ c ∧ c ≤ 'z' then Char.ofNat (c.toNat - 32) else c

/-- Python `str.upper()` (ASCII fragment). -/
def pyUpper (s : Str) : Str := s.map upperChar

/-- Python `str.rstrip(';')`: remove trailing semicolons. -/
def rstripSemis (s : Str) : Str := (s.reverse.dropWhile (fun c => c = ';')).reverse

/-- Python `str.split(sep)` for a one-character separator. -/
def splitOnChar (sep : Char) : Str → List Str
  | [] => [[]]
  | c :: rest =>
    let r := splitOnChar sep rest
    if c = sep then [] :: r
    else
      match r with
      | h :: t => (c :: h) :: t
      | [] => [[c]]

/-- Python `line.count(c)` for a character. -/
def countChar (c : Char) (s : Str) : Nat := s.count c

end AgentCH

namespace AgentCH

/-! ## Restricted builtins (`src/python_sandbox.py`, lines 22–30, and
`src/composite_agent/python_sandbox.py`, line 70)

Only the *name* side of the builtins dictionary matters for which names a
snippet can resolve, so the dictionaries are modelled by their key lists. -/

/-- The `_BLOCKED_BUILTINS` set from `src/python_sandbox.py`. -/
def BLOCKED_BUILTINS : List Str :=
  ["open", "eval", "exec", "compile", "__import__",
   "breakpoint", "exit", "quit", "input",
   "globals", "locals", "vars"].map String.data

/-- The comprehension `_SAFE_BUILTINS = dict-minus-blocked` from
`src/python_sandbox.py` (line 30): the builtin names exposed to `exec` by the
standalone sandbox variant. -/
def safeBuiltins (builtins : List Str) : List Str :=
  builtins.filter (fun k => !(BLOCKED_BUILTINS.contains k))

/-- The builtin names exposed to `exec` by
`src/composite_agent/python_sandbox.py` line 70:
`exec(code, {"__builtins__": __builtins__}, local_vars)` passes the full
builtins dictionary through unfiltered. -/
def compositeBuiltins (builtins : List Str) : List Str := builtins

/-! ## Stdout/stderr assembly in the two sandbox variants

Both variants capture stdout and stderr into separate buffers, and both have
a success path (no exception from `exec`) and an exception path.  The output
field of the returned dictionary is assembled as a function of the outcome
(`ok`) and the two captured buffers:

* `src/composite_agent/python_sandbox.py`: on the success path (lines 91–94)
  the captured stderr text is appended after the captured stdout text behind
  a `[stderr]` marker; on the exception path (line 107) the field is
  `stdout_capture.getvalue()` alone and the stderr buffer is dropped;
* `src/python_sandbox.py`: on both the success path (line 92) and the
  exception path (line 101) the field is `stdout_capture.getvalue()` alone
  and the stderr buffer is never read into the result. -/

/-- Output field of `src/composite_agent/python_sandbox.py` as a function of
the outcome: lines 91–96 on the success path, line 107 on the exception
path. -/
def compositeOutput (ok : Bool) (stdout stderr : Str) : Str :=
  if ok then
    if stderr ≠ [] then
      if stdout ≠ [] then stdout ++ ("\n[stderr]\n").data ++ stderr
      else ("[stderr]\n").data ++ stderr
    else stdout
  else stdout

/-- Output field of `src/python_sandbox.py` as a function of the outcome:
line 92 on the success path, line 101 on the exception path — the returned
`output` is `stdout_capture.getvalue()` alone on both. -/
def standaloneOutput (ok : Bool) (stdout stderr : Str) : Str := stdout

/-! ## `ClickHouseClient.execute_query`
(`src/composite_agent/clickhouse_client.py`, lines 61–81)

The embedding keeps the policy gate: whether the input is rejected before any
engine contact, and the exact SQL string handed to `self.client.query`.
Everything after engine contact (DataFrame, parquet, preview) is outside the
claims. -/

/-- What `execute_query` does with an input before any engine contact:
either return the structured `{success: False, error}` rejection, or pass a
(possibly rewritten) SQL string to the query engine. -/
inductive QueryAction where
  | rejected (error : Str)
  | executed (sql : Str)
deriving DecidableEq

/-- Rejection message of `execute_query`. -/
def REJECT_MSG : Str := ("Разрешены только SELECT запросы").data

/-- The SELECT keyword. -/
def SELECT_KW : Str := ("SELECT").data

/-- The LIMIT keyword. -/
def LIMIT_KW : Str := ("LIMIT").data

/-- The policy gate of `ClickHouseClient.execute_query`
(`src/composite_agent/clickhouse_client.py`, lines 67–81):
`sql_stripped = sql.strip()`; reject unless
`sql_stripped.upper().startswith("SELECT")`; if `"LIMIT" not in
sql_stripped.upper()` then `sql_stripped = sql_stripped.rstrip().rstrip(';')
+ " LIMIT 50000"`; then `self.client.query(sql_stripped)`. -/
def execute_query (sql : Str) : QueryAction :=
  let s := pyStrip sql
  if SELECT_KW <+: pyUpper s then
    if LIMIT_KW <:+: pyUpper s then .executed s
    else .executed (rstripSemis (pyStripRight s) ++ (" LIMIT 50000").data)
  else .rejected REJECT_MSG

/-- The first whitespace-delimited keyword of a SQL text, uppercased.  This
formalises the *specification's* phrase "statement whose first keyword is not
a read-only select"; it is deliberately not the code's own test. -/
def firstKeyword (sql : Str) : Str :=
  pyUpper ((pyStrip sql).takeWhile (fun c => !(isPySpace c)))

end AgentCH

namespace AgentCH

/-! ## `CSVAnalysisAgentAPI._detect_separator`
(`src/Julius_v2-main/csv_agent_api.py`, lines 123–148)

The byte input is modelled by its decoded sample text (the source decodes the
first 8 KiB as UTF-8 with `errors='ignore'`; on the ASCII inputs used below
this decoding is the identity). -/

/-- Candidate separators, in the order the source lists them. -/
def SEPARATORS : List Char := [',', ';', '\t', '|']

/-- The sampled non-blank lines: `lines = sample.split('\n')[:5]` filtered by
`if line.strip()`. -/
def sampledNonBlank (sample : Str) : List Str :=
  ((splitOnChar '\n' sample).take 5).filter (fun l => !(pyStrip l).isEmpty)

/-- Per-line occurrence counts of one candidate over the sampled non-blank
lines: `counts = [line.count(sep) for line in lines if line.strip()]`. -/
def lineCounts (sample : Str) (sep : Char) : List Nat :=
  (sampledNonBlank sample).map (countChar sep)

/-- The score `sep_counts[sep]` the source assigns to a candidate:
`counts[0]` when `len(set(counts)) == 1 and counts[0] > 0`, else
`max(counts)`. -/
def sepScore (counts : List Nat) : Nat :=
  match counts with
  | [] => 0
  | c :: rest =>
    if rest.all (fun x => x = c) && decide (0 < c) then c
    else (c :: rest).foldl Nat.max c

/-- Python `max(iterable, key=...)` over (key, value) pairs: returns the
pair with the greatest value, keeping the earliest on ties. -/
def maxPairFirst (best : Char × Nat) : List (Char × Nat) → Char × Nat
  | [] => best
  | p :: rest => if best.2 < p.2 then maxPairFirst p rest else maxPairFirst best rest

/-- Python `max(sep_counts, key=sep_counts.get)` over the dictionary in insertion
order; `none` when the dictionary is empty. -/
def maxByValFirst : List (Char × Nat) → Option Char
  | [] => none
  | p :: rest => some (maxPairFirst p rest).1

/-- The detector `CSVAnalysisAgentAPI._detect_separator`: score every candidate (all four
enter `sep_counts` whenever at least one sampled line is non-blank) and take
the maximum by value; `','` when there are no non-blank sampled lines. -/
def detect_separator (sample : Str) : Char :=
  let sepCounts :=
    if (sampledNonBlank sample).isEmpty then []
    else SEPARATORS.map (fun sep => (sep, sepScore (lineCounts sample sep)))
  match maxByValFirst sepCounts with
  | some sep => sep
  | none => ','

/-! ## The `analyze` retry loop
(`src/Julius_v2-main/csv_agent_api.py`, lines 1213–1265)

The reasoning engine is abstracted as a generation oracle `gen : Nat →
Option Str` (attempt index ↦ generated code, `none` when
`generate_code_with_retry` raises) and the sandbox as an execution oracle
`execOk : Str → Bool` (code ↦ success flag of `execute_python_code`). -/

/-- One `code_attempts` entry: the generated code and its success flag. -/
structure AttemptEntry where
  code : Str
  success : Bool
deriving DecidableEq

/-- The parts of the `analyze` result dictionary the retry-loop claims are
about. -/
structure RetryResult where
  success : Bool
  attempts : List AttemptEntry
  attemptsCount : Nat
deriving DecidableEq

/-- The bound `self.max_retries` (`csv_agent_api.py`, line 76). -/
def MAX_RETRIES : Nat := 3

/-- The `for attempt in range(self.max_retries)` loop body of `analyze`:
set `attempts_count`; generate (break on a generation error); append the
`code_attempts` entry; execute; on success mark the entry and break, else
continue. -/
def retryGo (gen : Nat → Option Str) (execOk : Str → Bool) :
    Nat → Nat → List AttemptEntry → RetryResult
  | 0, attempt, log => ⟨false, log, attempt⟩
  | fuel + 1, attempt, log =>
    match gen attempt with
    | none => ⟨false, log, attempt + 1⟩
    | some code =>
      let ok := execOk code
      let log := log ++ [⟨code, ok⟩]
      if ok then ⟨true, log, attempt + 1⟩
      else retryGo gen execOk fuel (attempt + 1) log

/-- The retry loop of `CSVAnalysisAgentAPI.analyze` for a non-empty user
query. -/
def analyzeRetry (gen : Nat → Option Str) (execOk : Str → Bool) : RetryResult :=
  retryGo gen execOk MAX_RETRIES 0 []

end AgentCH

namespace AgentCH

/-! ## Mutation detection in `CSVAnalysisAgentAPI.execute_python_code`
(`src/Julius_v2-main/csv_agent_api.py`, lines 645–679) and its consumption in
`analyze` (lines 1249–1254)

DataFrames are modelled by their structural value (`DataFrame.equals` compares
shape and cells); integer cell grids are enough for the claims.  The `exec` of
an arbitrary snippet is modelled as a transformer of the bindings the
detection logic reads afterwards: the working `df` binding (optional, since a
snippet may `del df`) and the explicit `modified_df` output slot. -/

/-- Structural stand-in for a pandas DataFrame (compared with `.equals`). -/
abbrev DataFrame := List (List Int)

/-- The bindings of `local_vars` that mutation detection reads after
`exec(code, local_vars)` returns. -/
structure PyLocals where
  df : Option DataFrame
  modified_df : Option DataFrame
deriving DecidableEq

/-- The namespace prepared before `exec`: `'df': df.copy()`,
`'modified_df': None` (lines 645–653). -/
def initLocals (dfIn : DataFrame) : PyLocals := ⟨some dfIn, none⟩

/-- Lines 671–679: `modified_df = local_vars.get('modified_df', None)`; if it
is `None` and `'df' in local_vars` and `not current_df.equals(df)`, the
working copy counts as the implicit mutation. -/
def detectModified (dfIn : DataFrame) (lv : PyLocals) : Option DataFrame :=
  match lv.modified_df with
  | some m => some m
  | none =>
    match lv.df with
    | some cur => if cur = dfIn then none else some cur
    | none => none

/-- The mutated-DataFrame component of `execute_python_code` for a snippet
that runs without raising, the snippet being modelled by its effect on the
relevant bindings. -/
def execute_python_code (dfIn : DataFrame) (snippet : PyLocals → PyLocals) :
    Option DataFrame :=
  detectModified dfIn (snippet (initLocals dfIn))

/-- In `analyze`, lines 1249–1254, `was_modified` is set exactly when the
returned `modified_df` is not `None`. -/
def wasModified (dfIn : DataFrame) (snippet : PyLocals → PyLocals) : Bool :=
  (execute_python_code dfIn snippet).isSome

end AgentCH

namespace AgentCH

/-! ## `CompositeAnalysisAgent.analyze`
(`src/composite_agent/composite_agent.py`, lines 84–219)

The Anthropic engine is abstracted as a script `Nat → EngineResponse` giving
the response of the `messages.create` call made on each loop iteration; tool
execution is abstracted by attaching to each `tool_use` block the plot list
its `python_analysis` result carries (empty for the other tools).  The
conversation store is observed through an event trace: which store writes
happen, interleaved with the engine calls. -/

/-- The `response.stop_reason` values, coarsened exactly as the source's `if/elif/else`
coarsens it. -/
inductive StopReason where
  | end_turn
  | tool_use
  | other
deriving DecidableEq

/-- One `tool_use` content block, together with the plots its execution
produces (the `plots` field of the `python_analysis` result JSON; `[]` for
`list_tables` / `clickhouse_query`). -/
structure ToolUseBlock where
  name : Str
  input : Str
  plots : List Str
deriving DecidableEq

/-- One engine response: stop reason, text blocks, `tool_use` blocks. -/
structure EngineResponse where
  stop : StopReason
  texts : List Str
  toolCalls : List ToolUseBlock
deriving DecidableEq

/-- One `tool_calls_log` entry (lines 187–191). -/
structure ToolCallRecord where
  tool : Str
  input : Str
  iteration : Nat
deriving DecidableEq

/-- The result envelope of `analyze` (the `session_id` field is the input
session id and is omitted). -/
structure Envelope where
  success : Bool
  text_output : Str
  plots : List Str
  tool_calls : List ToolCallRecord
  error : Option Str
deriving DecidableEq

/-- Store/engine events observable during one `analyze` call. -/
inductive AgentEv where
  | saveUser (text : Str)
  | engineCall (iteration : Nat)
  | saveAssistant (text : Str)
deriving DecidableEq

/-- Python newline join of the text blocks. -/
def joinNL : List Str → Str
  | [] => []
  | [x] => x
  | x :: rest => x ++ '\n' :: joinNL rest

/-- Lines 174–185: for a `python_analysis` call whose result carries a
non-empty `plots` list, those plots are moved into `all_plots` (and replaced
by a count in the text fed back to the engine). -/
def harvestPlots (b : ToolUseBlock) : List Str :=
  if b.name = ("python_analysis").data ∧ b.plots ≠ [] then b.plots else []

/-- The bound `max_iterations` (line 111). -/
def MAX_ITERATIONS : Nat := 10

/-- Error message of the iteration-limit exit (line 218). -/
def ITER_LIMIT_MSG : Str := ("Превышен лимит итераций агента (10)").data

/-- Error message of the unexpected-stop-reason exit (line 208). -/
def UNEXPECTED_MSG : Str := ("Unexpected stop_reason: other").data

/-- The `for iteration in range(max_iterations)` loop of `analyze`
(lines 113–219), accumulating `all_plots`, `tool_calls_log` and the event
trace.  `end_turn` saves the assistant turn and returns a success envelope;
`tool_use` executes the tools and continues; any other stop reason returns a
failure envelope with an **empty** plots list (line 206); falling off the
loop returns a failure envelope that keeps `all_plots` (line 216). -/
def agentGo (script : Nat → EngineResponse) :
    Nat → Nat → List Str → List ToolCallRecord → List AgentEv →
    List AgentEv × Envelope
  | 0, _, allPlots, log, evs =>
    (evs, ⟨false, [], allPlots, log, some ITER_LIMIT_MSG⟩)
  | fuel + 1, it, allPlots, log, evs =>
    let evs := evs ++ [AgentEv.engineCall it]
    let r := script it
    match r.stop with
    | .end_turn =>
      let finalText := joinNL r.texts
      (evs ++ [AgentEv.saveAssistant finalText],
        ⟨true, finalText, allPlots, log, none⟩)
    | .tool_use =>
      let log := log ++ r.toolCalls.map (fun b => ⟨b.name, b.input, it⟩)
      let allPlots := allPlots ++ (r.toolCalls.map harvestPlots).flatten
      agentGo script fuel (it + 1) allPlots log evs
    | .other =>
      (evs, ⟨false, [], [], log, some UNEXPECTED_MSG⟩)

/-- Method `CompositeAnalysisAgent.analyze`: save the user turn to the conversation
store (line 103), then run the bounded engine loop. -/
def analyzeAgent (script : Nat → EngineResponse) (userQuery : Str) :
    List AgentEv × Envelope :=
  agentGo script MAX_ITERATIONS 0 [] [] [AgentEv.saveUser userQuery]

/-- The `tool_calls_log` entries accumulated by the first `n` iterations of a
script (all assumed to dispatch tools). -/
def accLog (script : Nat → EngineResponse) : Nat → Nat → List ToolCallRecord
  | _, 0 => []
  | it, n + 1 =>
    (script it).toolCalls.map (fun b => ⟨b.name, b.input, it⟩) ++
      accLog script (it + 1) n

/-- The `all_plots` entries accumulated by the first `n` iterations of a
script (all assumed to dispatch tools). -/
def accPlots (script : Nat → EngineResponse) : Nat → Nat → List Str
  | _, 0 => []
  | it, n + 1 =>
    ((script it).toolCalls.map harvestPlots).flatten ++ accPlots script (it + 1) n

end AgentCH

namespace AgentCH

/-! ## `ChatStorage` (`src/composite_agent/chat_storage.py`)

The SQLite tables are modelled as in-memory lists.  `datetime('now')` is
modelled by an explicit `now : Nat` argument on every operation; the theorems
feed in strictly increasing clock values, idealising away the one-second
timestamp granularity of the source (under which `ORDER BY created_at` leaves
the order of same-second rows unspecified).  The `cleanup_expired` sweep is
embedded separately below (claim C8), at the level of the timestamp strings
it actually compares. -/

/-- Message role (the `role` column's CHECK constraint). -/
inductive Role where
  | user
  | assistant
deriving DecidableEq

/-- One row of the `messages` table. -/
structure StoredMsg where
  id : Nat
  sessionId : Str
  role : Role
  content : Str
  createdAt : Nat
deriving DecidableEq

/-- One row of the `sessions` table. -/
structure SessionRow where
  sessionId : Str
  createdAt : Nat
  lastActivity : Nat
deriving DecidableEq

/-- The database state, plus the AUTOINCREMENT counter for message ids. -/
structure ChatStorage where
  sessions : List SessionRow
  msgs : List StoredMsg
  nextId : Nat
deriving DecidableEq

/-- A freshly initialised database. -/
def emptyStorage : ChatStorage := ⟨[], [], 0⟩

/-- Default `max_messages_per_session` (line 17). -/
def MAX_MESSAGES : Nat := 20

/-- Default `session_ttl_hours` (line 18). -/
def SESSION_TTL_HOURS : Nat := 24

/-- Method `_ensure_session` (lines 52–62): `INSERT OR IGNORE` the session row,
then refresh `last_activity`. -/
def ensure_session (now : Nat) (sid : Str) (st : ChatStorage) : ChatStorage :=
  let sessions :=
    if st.sessions.any (fun r => r.sessionId = sid) then st.sessions
    else st.sessions ++ [⟨sid, now, now⟩]
  { st with
    sessions :=
      sessions.map (fun r =>
        if r.sessionId = sid then { r with lastActivity := now } else r) }

/-- The messages of one session, in stored order. -/
def sessionMsgs (sid : Str) (st : ChatStorage) : List StoredMsg :=
  st.msgs.filter (fun m => m.sessionId = sid)

/-- How many messages of the same session are strictly newer than `m`. -/
def newerCount (sess : List StoredMsg) (m : StoredMsg) : Nat :=
  (sess.filter (fun x => m.createdAt < x.createdAt)).length

/-- Method `_trim_session` (lines 64–78): delete the session's messages that are not
among the `max_messages` most recent by `created_at` (`id NOT IN (SELECT id …
ORDER BY created_at DESC LIMIT ?)`).  With distinct timestamps, a message
survives exactly when fewer than `MAX_MESSAGES` messages of the session are
strictly newer. -/
def trim_session (sid : Str) (st : ChatStorage) : ChatStorage :=
  { st with
    msgs :=
      st.msgs.filter (fun m =>
        !(m.sessionId = sid) || newerCount (sessionMsgs sid st) m < MAX_MESSAGES) }

/-- Append one `messages` row with a fresh id. -/
def insertMsg (now : Nat) (sid : Str) (role : Role) (content : Str)
    (st : ChatStorage) : ChatStorage :=
  { st with
    msgs := st.msgs ++ [⟨st.nextId, sid, role, content, now⟩],
    nextId := st.nextId + 1 }

/-- Method `save_user_message` (lines 80–88). -/
def save_user_message (now : Nat) (sid : Str) (text : Str) (st : ChatStorage) :
    ChatStorage :=
  trim_session sid (insertMsg now sid .user text (ensure_session now sid st))

/-- The `[...обрезано...]` truncation marker appended to long assistant
messages (line 98). -/
def TRUNC_MARKER : Str := ("\n\n[...обрезано...]").data

/-- Truncation applied by `save_assistant_message` (lines 97–98). -/
def truncAssistant (text : Str) : Str :=
  if 3000 < text.length then text.take 3000 ++ TRUNC_MARKER else text

/-- Method `save_assistant_message` (lines 90–104). -/
def save_assistant_message (now : Nat) (sid : Str) (text : Str)
    (st : ChatStorage) : ChatStorage :=
  trim_session sid (insertMsg now sid .assistant (truncAssistant text)
    (ensure_session now sid st))

/-- Stable insertion into a `created_at`-ascending list. -/
def insertAsc (m : StoredMsg) : List StoredMsg → List StoredMsg
  | [] => [m]
  | x :: xs =>
    if m.createdAt ≤ x.createdAt then m :: x :: xs else x :: insertAsc m xs

/-- The `ORDER BY created_at ASC` clause as a stable insertion sort. -/
def orderByCreatedAsc : List StoredMsg → List StoredMsg
  | [] => []
  | x :: xs => insertAsc x (orderByCreatedAsc xs)

/-- Method `get_history` (lines 106–117): the session's `(role, content)` pairs
ordered by `created_at` ascending. -/
def get_history (sid : Str) (st : ChatStorage) : List (Role × Str) :=
  (orderByCreatedAsc (sessionMsgs sid st)).map (fun m => (m.role, m.content))

/-- Role dispatch over the two save entry points. -/
def save_message (now : Nat) (sid : Str) (p : Role × Str) (st : ChatStorage) :
    ChatStorage :=
  match p with
  | (.user, txt) => save_user_message now sid txt st
  | (.assistant, txt) => save_assistant_message now sid txt st

/-- Save a sequence of messages into one session, the `i`-th at time
`t0 + i` (each turn happens strictly later than the previous one). -/
def insert_messages (sid : Str) (t0 : Nat) (items : List (Role × Str))
    (st : ChatStorage) : ChatStorage :=
  match items with
  | [] => st
  | p :: rest => insert_messages sid (t0 + 1) rest (save_message t0 sid p st)

/-- The content actually stored for one saved message. -/
def storedPair : Role × Str → Role × Str
  | (.user, txt) => (.user, txt)
  | (.assistant, txt) => (.assistant, truncAssistant txt)

end AgentCH

namespace AgentCH

/-! ## Claim C1: blocked builtins -/

/-- Claim C1 as stated is false for the composite-agent sandbox variant:
`src/composite_agent/python_sandbox.py` passes the full builtins dictionary
through to `exec`, so a snippet referencing `open` resolves the real builtin
there.  Concretely, with a builtins environment exposing `open` and `print`,
the composite execution namespace still exposes `open` even though `open` is
one of the names the claim requires to be blocked. -/
theorem composite_sandbox_exposes_open :
    ("open").data ∈ BLOCKED_BUILTINS ∧
    ("open").data ∈ compositeBuiltins [("open").data, ("print").data] := by
  decide

/-- Claim C1 (amended): in the standalone sandbox variant
(`src/python_sandbox.py`), the execution namespace does not expose any of the
blocked builtin names — filesystem `open`, dynamic evaluation/compilation,
`__import__`, interactive input, scope introspection, or process-exit
primitives — whatever the ambient builtins dictionary contains; the
composite-agent variant passes the full builtins dictionary through
unfiltered. -/
theorem standalone_sandbox_blocks_builtins :
    ∀ (builtins : List Str) (n : Str), n ∈ BLOCKED_BUILTINS →
      n ∉ safeBuiltins builtins := by
  intro builtins n hn hmem
  simp [safeBuiltins, List.mem_filter] at hmem
  exact hmem.2 hn

/-- Witness for `standalone_sandbox_blocks_builtins` at a concrete builtins
environment and blocked name. -/
theorem standalone_sandbox_blocks_builtins_witness :
    ("open").data ∈ BLOCKED_BUILTINS ∧
    ("open").data ∉ safeBuiltins [("open").data, ("print").data] :=
  ⟨by decide,
   standalone_sandbox_blocks_builtins [("open").data, ("print").data]
     (("open").data) (by decide)⟩

/-! ## Claim C9: stderr concatenation -/

/-- Claim C9 as stated is false for the standalone sandbox variant:
`src/python_sandbox.py` returns only the captured stdout, so with a
successful execution producing stdout `"A"` and stderr `"B"` the returned
output field is `"A"` — the stderr text is dropped, not appended after the
stdout text. -/
theorem standalone_sandbox_drops_stderr :
    standaloneOutput true ['A'] ['B'] = ['A'] ∧
    ¬ ∃ mid : Str, standaloneOutput true ['A'] ['B'] = ['A'] ++ mid ++ ['B'] := by
  refine ⟨rfl, ?_⟩
  rintro ⟨mid, h⟩
  rw [standaloneOutput] at h
  simp at h

/-- Claim C9 (amended): on a successful execution the composite-agent
sandbox variant concatenates the captured stderr text after the captured
stdout text in the returned output field (separated by a `[stderr]` marker);
on its exception path it returns the captured stdout alone, discarding the
stderr text; the standalone variant returns the captured stdout alone on
both paths. -/
theorem sandbox_output_stderr_policy :
    ∀ (ok : Bool) (stdout stderr : Str),
      (ok = true →
        ∃ mid : Str,
          compositeOutput ok stdout stderr = stdout ++ mid ++ stderr) ∧
      (ok = false → compositeOutput ok stdout stderr = stdout) ∧
      standaloneOutput ok stdout stderr = stdout := by
  intro ok out err
  refine ⟨?_, ?_, rfl⟩
  · intro hok
    subst hok
    by_cases he : err = []
    · subst he
      exact ⟨[], by simp [compositeOutput]⟩
    · by_cases ho : out = []
      · subst ho
        exact ⟨("[stderr]\n").data, by simp [compositeOutput, he]⟩
      · exact ⟨("\n[stderr]\n").data, by simp [compositeOutput, he, ho]⟩
  · intro hok
    subst hok
    simp [compositeOutput]

/-- Witness for `sandbox_output_stderr_policy` at concrete buffers, on both
the success and the exception path. -/
theorem sandbox_output_stderr_policy_witness :
    (∃ mid : Str, compositeOutput true ['A'] ['B'] = ['A'] ++ mid ++ ['B']) ∧
    compositeOutput false ['A'] ['B'] = ['A'] ∧
    standaloneOutput true ['A'] ['B'] = ['A'] :=
  ⟨(sandbox_output_stderr_policy true ['A'] ['B']).1 rfl,
   (sandbox_output_stderr_policy false ['A'] ['B']).2.1 rfl,
   (sandbox_output_stderr_policy true ['A'] ['B']).2.2⟩

/-! ## Claim C6: mutation detection -/

/-- Claim C6: for every snippet run by `execute_python_code`, an explicitly
bound `modified_df` takes precedence and is reported as the mutated dataset;
when it is not bound, a mutation is reported exactly when the working `df`
binding is structurally unequal to its pre-execution value.  In particular a
snippet that rebinds `df` to a different value is reported as a mutation, and
a snippet that leaves the namespace untouched (only reads and prints) reports
none. -/
theorem mutation_detection_spec :
    ∀ (dfIn : DataFrame) (snippet : PyLocals → PyLocals),
      (∀ m, (snippet (initLocals dfIn)).modified_df = some m →
        execute_python_code dfIn snippet = some m) ∧
      ((snippet (initLocals dfIn)).modified_df = none →
        ∀ cur, (snippet (initLocals dfIn)).df = some cur →
          execute_python_code dfIn snippet =
            if cur = dfIn then none else some cur) ∧
      (∀ d2 : DataFrame, d2 ≠ dfIn →
        wasModified dfIn (fun lv => ⟨some d2, lv.modified_df⟩) = true) ∧
      wasModified dfIn (fun lv => lv) = false := by
  intro dfIn snippet
  refine ⟨?_, ?_, ?_, ?_⟩
  · intro m hm
    simp [execute_python_code, detectModified, hm]
  · intro hm cur hcur
    simp [execute_python_code, detectModified, hm, hcur]
  · intro d2 hd2
    simp [wasModified, execute_python_code, detectModified, initLocals, hd2]
  · simp [wasModified, execute_python_code, detectModified, initLocals]

/-- Witness for `mutation_detection_spec` at concrete DataFrames and
snippets. -/
theorem mutation_detection_spec_witness :
    execute_python_code [[1]] (fun lv => ⟨lv.df, some [[5]]⟩) = some [[5]] ∧
    wasModified [[1]] (fun lv => ⟨some [[2]], lv.modified_df⟩) = true ∧
    wasModified [[1]] (fun lv => lv) = false :=
  ⟨(mutation_detection_spec [[1]] (fun lv => ⟨lv.df, some [[5]]⟩)).1 [[5]] rfl,
   (mutation_detection_spec [[1]] (fun lv => ⟨some [[2]], lv.modified_df⟩)).2.2.1
     [[2]] (by decide),
   (mutation_detection_spec [[1]] (fun lv => lv)).2.2.2⟩

end AgentCH

namespace AgentCH

/-! ## Claim C3: retry-loop bound and early exit -/

/-- Claim C3: when every generated snippet's execution fails, the retry loop
makes exactly `MAX_RETRIES = 3` generation attempts and terminates with
`success = false` and a `code_attempts` log of length 3; when execution
succeeds on attempt `k + 1 ≤ 3`, the loop stops after exactly `k + 1`
attempts without generating further code. -/
theorem analyze_retry_bound :
    ∀ (gen : Nat → Option Str) (execOk : Str → Bool),
      ((∀ k, k < MAX_RETRIES → ∃ c, gen k = some c ∧ execOk c = false) →
        (analyzeRetry gen execOk).success = false ∧
        (analyzeRetry gen execOk).attempts.length = 3 ∧
        (analyzeRetry gen execOk).attemptsCount = 3) ∧
      (∀ k, k < MAX_RETRIES →
        (∀ j, j < k → ∃ c, gen j = some c ∧ execOk c = false) →
        (∃ c, gen k = some c ∧ execOk c = true) →
        (analyzeRetry gen execOk).success = true ∧
        (analyzeRetry gen execOk).attempts.length = k + 1 ∧
        (analyzeRetry gen execOk).attemptsCount = k + 1) := by
  intro gen execOk
  constructor
  · intro h
    obtain ⟨c0, hg0, he0⟩ := h 0 (by norm_num [MAX_RETRIES])
    obtain ⟨c1, hg1, he1⟩ := h 1 (by norm_num [MAX_RETRIES])
    obtain ⟨c2, hg2, he2⟩ := h 2 (by norm_num [MAX_RETRIES])
    simp [analyzeRetry, MAX_RETRIES, retryGo, hg0, hg1, hg2, he0, he1, he2]
  · intro k hk hfail hsucc
    simp only [MAX_RETRIES] at hk
    interval_cases k
    · obtain ⟨c0, hg0, he0⟩ := hsucc
      simp [analyzeRetry, MAX_RETRIES, retryGo, hg0, he0]
    · obtain ⟨c1, hg1, he1⟩ := hsucc
      obtain ⟨c0, hg0, he0⟩ := hfail 0 (by norm_num)
      simp [analyzeRetry, MAX_RETRIES, retryGo, hg0, he0, hg1, he1]
    · obtain ⟨c2, hg2, he2⟩ := hsucc
      obtain ⟨c0, hg0, he0⟩ := hfail 0 (by norm_num)
      obtain ⟨c1, hg1, he1⟩ := hfail 1 (by norm_num)
      simp [analyzeRetry, MAX_RETRIES, retryGo, hg0, he0, hg1, he1, hg2, he2]

/-- Witness for `analyze_retry_bound`: an always-failing snippet sequence
runs all 3 attempts; a sequence succeeding on the second attempt stops at
2. -/
theorem analyze_retry_bound_witness :
    ((analyzeRetry (fun _ => some ['A']) (fun _ => false)).success = false ∧
      (analyzeRetry (fun _ => some ['A']) (fun _ => false)).attempts.length = 3 ∧
      (analyzeRetry (fun _ => some ['A']) (fun _ => false)).attemptsCount = 3) ∧
    ((analyzeRetry (fun n => some (if n = 1 then ['B'] else ['A']))
        (fun c => c = ['B'])).success = true ∧
      (analyzeRetry (fun n => some (if n = 1 then ['B'] else ['A']))
        (fun c => c = ['B'])).attempts.length = 2 ∧
      (analyzeRetry (fun n => some (if n = 1 then ['B'] else ['A']))
        (fun c => c = ['B'])).attemptsCount = 2) :=
  ⟨(analyze_retry_bound (fun _ => some ['A']) (fun _ => false)).1
      (fun k _ => ⟨['A'], rfl, rfl⟩),
   (analyze_retry_bound (fun n => some (if n = 1 then ['B'] else ['A']))
        (fun c => c = ['B'])).2 1 (by norm_num [MAX_RETRIES])
      (by intro j hj; interval_cases j; exact ⟨['A'], rfl, by decide⟩)
      ⟨['B'], rfl, by decide⟩⟩

end AgentCH

namespace AgentCH

/-! ## Claim C2: SELECT gate and LIMIT injection -/

/-- Dropping a prefix of elements twice drops it once. -/
theorem dropWhile_idem {α : Type} (p : α → Bool) (l : List α) :
    (l.dropWhile p).dropWhile p = l.dropWhile p := by
  induction l with
  | nil => rfl
  | cons a t ih =>
    by_cases h : p a = true <;> simp [List.dropWhile_cons, h, ih]

/-- Python `rstrip` is idempotent. -/
theorem pyStripRight_idem (s : Str) :
    pyStripRight (pyStripRight s) = pyStripRight s := by
  simp [pyStripRight, dropWhile_idem]

/-- A stripped string has no trailing whitespace left to strip. -/
theorem pyStripRight_pyStrip (s : Str) :
    pyStripRight (pyStrip s) = pyStrip s := by
  simp [pyStrip, pyStripRight_idem]

/-- Python `rstrip` with `';'` splits off a (possibly empty) all-semicolon tail. -/
theorem rstripSemis_decomp (u : Str) :
    ∃ w, u = rstripSemis u ++ w ∧ ∀ c ∈ w, c = ';' := by
  refine ⟨(u.reverse.takeWhile (fun c => c = ';')).reverse, ?_, ?_⟩
  · have h0 :
        List.takeWhile (fun c => decide (c = ';')) u.reverse ++
          List.dropWhile (fun c => decide (c = ';')) u.reverse = u.reverse :=
      List.takeWhile_append_dropWhile _ _
    have h1 := congrArg List.reverse h0
    rw [List.reverse_append, List.reverse_reverse] at h1
    rw [rstripSemis]
    exact h1.symm
  · intro c hc
    rw [List.mem_reverse] at hc
    have := List.mem_takeWhile_imp hc
    simpa using this

/-- Uppercasing a semicolon is the identity. -/
theorem upperChar_semi : upperChar ';' = ';' := by decide

/-- The SELECT prefix of the uppercased text survives `rstrip(';')`. -/
theorem select_prefix_rstrip (u : Str) (h : SELECT_KW <+: pyUpper u) :
    SELECT_KW <+: pyUpper (rstripSemis u) := by
  obtain ⟨w, hu, hw⟩ := rstripSemis_decomp u
  have hsplit : pyUpper u = pyUpper (rstripSemis u) ++ pyUpper w := by
    conv_lhs => rw [hu]
    simp [pyUpper]
  have hBsemi : ∀ c ∈ pyUpper w, c = ';' := by
    intro c hc
    rw [pyUpper, List.mem_map] at hc
    obtain ⟨x, hx, rfl⟩ := hc
    rw [hw x hx]
    exact upperChar_semi
  have hlen : SELECT_KW.length = 6 := by decide
  have htake : SELECT_KW = (pyUpper (rstripSemis u) ++ pyUpper w).take 6 := by
    rw [← hsplit, ← hlen]
    exact List.prefix_iff_eq_take.mp h
  by_cases hAlen : 6 ≤ (pyUpper (rstripSemis u)).length
  · have h2 : SELECT_KW = (pyUpper (rstripSemis u)).take 6 := by
      rw [htake, List.take_append_eq_append_take,
        Nat.sub_eq_zero_of_le hAlen, List.take_zero, List.append_nil]
    rw [h2]
    exact List.take_prefix 6 _
  · exfalso
    push_neg at hAlen
    have htake2 :
        SELECT_KW = pyUpper (rstripSemis u) ++
          (pyUpper w).take (6 - (pyUpper (rstripSemis u)).length) := by
      rw [htake, List.take_append_eq_append_take,
        List.take_of_length_le (le_of_lt hAlen)]
    have hBne : pyUpper w ≠ [] := by
      intro hBnil
      rw [hBnil, List.take_nil, List.append_nil] at htake2
      have := congrArg List.length htake2
      rw [hlen] at this
      omega
    obtain ⟨b0, B', hBcons⟩ := List.exists_cons_of_ne_nil hBne
    have hk : 1 ≤ 6 - (pyUpper (rstripSemis u)).length := by omega
    have hb0 : b0 ∈ (pyUpper w).take (6 - (pyUpper (rstripSemis u)).length) := by
      rw [hBcons]
      obtain ⟨k, hk2⟩ := Nat.exists_eq_add_of_le hk
      rw [hk2]
      simp [List.take_cons]
    have hmem : (';' : Char) ∈ SELECT_KW := by
      rw [htake2]
      refine List.mem_append_right _ ?_
      have hsemi := hBsemi b0 (by rw [hBcons]; exact List.mem_cons_self _ _)
      rwa [hsemi] at hb0
    exact absurd hmem (by decide)

/-- The uppercased text of anything with `" LIMIT 50000"` appended contains
the LIMIT keyword. -/
theorem limit_infix_append (r : Str) :
    LIMIT_KW <:+: pyUpper (r ++ (" LIMIT 50000").data) := by
  have h : LIMIT_KW <:+: pyUpper ((" LIMIT 50000").data) := by
    refine ⟨[' '], (" 50000").data, ?_⟩
    decide
  obtain ⟨s, t, hst⟩ := h
  refine ⟨pyUpper r ++ s, t, ?_⟩
  have hsplit : pyUpper (r ++ (" LIMIT 50000").data) =
      pyUpper r ++ pyUpper ((" LIMIT 50000").data) := by
    simp [pyUpper]
  rw [hsplit, ← hst]
  simp [List.append_assoc]

/-- Claim C2 as stated is false: `"SELECTION FROM t"` has first keyword
`SELECTION`, not `SELECT`, yet `execute_query` accepts it — the gate is a
`startswith("SELECT")` prefix test — and contacts the engine with the
LIMIT-capped statement. -/
theorem execute_query_accepts_selection_keyword :
    firstKeyword ("SELECTION FROM t").data ≠ SELECT_KW ∧
    execute_query ("SELECTION FROM t").data =
      .executed (("SELECTION FROM t LIMIT 50000").data) := by
  decide

/-- Claim C2 (amended): `execute_query` rejects — returning the structured
`{success: false, error}` value with no engine contact — exactly those
statements whose stripped, uppercased text does not start with the prefix
`SELECT`; an accepted statement whose uppercased text contains the substring
`LIMIT` is executed as stripped, and one without it is executed with trailing
semicolons removed and `" LIMIT 50000"` appended; consequently every SQL
string that reaches the engine starts (case-insensitively) with `SELECT` and
contains `LIMIT`. -/
theorem execute_query_gate_spec :
    ∀ sql : Str,
      (¬ SELECT_KW <+: pyUpper (pyStrip sql) →
        execute_query sql = .rejected REJECT_MSG) ∧
      (SELECT_KW <+: pyUpper (pyStrip sql) →
        (LIMIT_KW <:+: pyUpper (pyStrip sql) →
          execute_query sql = .executed (pyStrip sql)) ∧
        (¬ LIMIT_KW <:+: pyUpper (pyStrip sql) →
          execute_query sql =
            .executed (rstripSemis (pyStrip sql) ++ (" LIMIT 50000").data))) ∧
      (∀ s, execute_query sql = .executed s →
        SELECT_KW <+: pyUpper s ∧ LIMIT_KW <:+: pyUpper s) := by
  intro sql
  have hid : pyStripRight (pyStrip sql) = pyStrip sql := pyStripRight_pyStrip sql
  refine ⟨?_, ?_, ?_⟩
  · intro h
    simp [execute_query, h]
  · intro h
    refine ⟨?_, ?_⟩
    · intro hl
      simp [execute_query, h, hl]
    · intro hl
      simp [execute_query, h, hl, hid]
  · intro s hs
    simp only [execute_query] at hs
    split_ifs at hs with h1 h2
    · rw [QueryAction.executed.injEq] at hs
      subst hs
      exact ⟨h1, h2⟩
    · rw [QueryAction.executed.injEq] at hs
      subst hs
      rw [hid]
      constructor
      · have hsplit : pyUpper (rstripSemis (pyStrip sql) ++ (" LIMIT 50000").data) =
            pyUpper (rstripSemis (pyStrip sql)) ++ pyUpper ((" LIMIT 50000").data) := by
          simp [pyUpper]
        rw [hsplit]
        exact (select_prefix_rstrip _ h1).trans (List.prefix_append _ _)
      · exact limit_infix_append _

end AgentCH

namespace AgentCH

/-- Witness for `execute_query_gate_spec` at concrete SQL strings: an UPDATE
is rejected, an unbounded SELECT gets the LIMIT cap, a SELECT with a LIMIT
passes through, and the executed SQL satisfies the gate invariants. -/
theorem execute_query_gate_spec_witness :
    execute_query ("UPDATE t SET x=1").data = .rejected REJECT_MSG ∧
    execute_query ("SELECT * FROM t").data =
      .executed (("SELECT * FROM t LIMIT 50000").data) ∧
    execute_query ("SELECT 1 LIMIT 5").data = .executed (("SELECT 1 LIMIT 5").data) ∧
    (SELECT_KW <+: pyUpper (("SELECT * FROM t LIMIT 50000").data) ∧
      LIMIT_KW <:+: pyUpper (("SELECT * FROM t LIMIT 50000").data)) :=
  ⟨(execute_query_gate_spec (("UPDATE t SET x=1").data)).1 (by decide),
   ((execute_query_gate_spec (("SELECT * FROM t").data)).2.1 (by decide)).2 (by decide),
   ((execute_query_gate_spec (("SELECT 1 LIMIT 5").data)).2.1 (by decide)).1 (by decide),
   (execute_query_gate_spec (("SELECT * FROM t").data)).2.2
     (("SELECT * FROM t LIMIT 50000").data) (by decide)⟩

end AgentCH

namespace AgentCH

/-! ## Claims C10 and C4: the tool-dispatch loop -/

/-- Recognizer for user-turn store writes. -/
def isSaveUser : AgentEv → Bool
  | .saveUser _ => true
  | _ => false

/-- Recognizer for assistant-turn store writes. -/
def isSaveAssistant : AgentEv → Bool
  | .saveAssistant _ => true
  | _ => false

/-- The loop appends no user-turn store writes, and appends an assistant-turn
store write exactly when it terminates successfully (`end_turn`). -/
theorem agentGo_trace (script : Nat → EngineResponse) :
    ∀ (fuel it : Nat) (plots : List Str) (log : List ToolCallRecord)
      (evs : List AgentEv),
      ∃ suffix,
        (agentGo script fuel it plots log evs).1 = evs ++ suffix ∧
        (∀ e ∈ suffix, isSaveUser e = false) ∧
        suffix.any isSaveAssistant =
          (agentGo script fuel it plots log evs).2.success := by
  intro fuel
  induction fuel with
  | zero =>
    intro it plots log evs
    exact ⟨[], by simp [agentGo], by simp, by simp [agentGo]⟩
  | succ n ih =>
    intro it plots log evs
    cases hstop : (script it).stop with
    | end_turn =>
      refine ⟨[AgentEv.engineCall it,
        AgentEv.saveAssistant (joinNL (script it).texts)], ?_, ?_, ?_⟩
      · simp [agentGo, hstop]
      · intro e he
        rcases List.mem_cons.mp he with rfl | he
        · rfl
        · rcases List.mem_cons.mp he with rfl | he
          · rfl
          · cases he
      · simp [agentGo, hstop, isSaveAssistant]
    | tool_use =>
      obtain ⟨s2, h1, h2, h3⟩ := ih (it + 1)
        (plots ++ ((script it).toolCalls.map harvestPlots).flatten)
        (log ++ (script it).toolCalls.map (fun b => ⟨b.name, b.input, it⟩))
        (evs ++ [AgentEv.engineCall it])
      refine ⟨AgentEv.engineCall it :: s2, ?_, ?_, ?_⟩
      · simp only [agentGo, hstop]
        rw [h1]
        simp
      · intro e he
        rcases List.mem_cons.mp he with rfl | he
        · rfl
        · exact h2 e he
      · simp only [agentGo, hstop]
        rw [← h3]
        simp [isSaveAssistant]
    | other =>
      refine ⟨[AgentEv.engineCall it], ?_, ?_, ?_⟩
      · simp [agentGo, hstop]
      · intro e he
        rcases List.mem_cons.mp he with rfl | he
        · rfl
        · cases he
      · simp [agentGo, hstop, isSaveAssistant]

/-- Claim C10: every `analyze` call appends exactly one user message to the
conversation store, as the very first store/engine event (before the engine
is first called), even when the request fails; an assistant message is
appended if and only if the loop terminates with the engine signalling
completion (`success = true`), so failure envelopes are never persisted. -/
theorem agent_store_persistence :
    ∀ (script : Nat → EngineResponse) (q : Str),
      (analyzeAgent script q).1.head? = some (.saveUser q) ∧
      (analyzeAgent script q).1.filter isSaveUser = [.saveUser q] ∧
      (analyzeAgent script q).1.any isSaveAssistant =
        (analyzeAgent script q).2.success := by
  intro script q
  obtain ⟨suffix, h1, h2, h3⟩ :=
    agentGo_trace script MAX_ITERATIONS 0 [] [] [AgentEv.saveUser q]
  have hfil : suffix.filter isSaveUser = [] := by
    rw [List.filter_eq_nil_iff]
    intro a ha
    simp [h2 a ha]
  refine ⟨?_, ?_, ?_⟩
  · rw [analyzeAgent, h1]
    simp
  · rw [analyzeAgent, h1]
    simp [List.filter_cons, isSaveUser, hfil]
  · rw [analyzeAgent, h1, ← h3]
    simp [isSaveAssistant]

end AgentCH

namespace AgentCH

/-- When every consulted response dispatches tools, the loop exhausts its
fuel and returns the iteration-limit envelope carrying all accumulated plots
and tool-call log entries. -/
theorem agentGo_all_tool (script : Nat → EngineResponse) :
    ∀ (fuel it : Nat) (plots : List Str) (log : List ToolCallRecord)
      (evs : List AgentEv),
      (∀ j, j < fuel → (script (it + j)).stop = .tool_use) →
      (agentGo script fuel it plots log evs).2 =
        ⟨false, [], plots ++ accPlots script it fuel,
          log ++ accLog script it fuel, some ITER_LIMIT_MSG⟩ := by
  intro fuel
  induction fuel with
  | zero =>
    intro it plots log evs h
    simp [agentGo, accPlots, accLog]
  | succ n ih =>
    intro it plots log evs h
    have h0 : (script it).stop = .tool_use := by
      simpa using h 0 (Nat.succ_pos n)
    have hshift : ∀ j, j < n → (script (it + 1 + j)).stop = .tool_use := by
      intro j hj
      have h2 := h (j + 1) (by omega)
      rwa [show it + (j + 1) = it + 1 + j by omega] at h2
    simp only [agentGo, h0]
    rw [ih (it + 1) _ _ _ hshift]
    simp [accPlots, accLog, List.append_assoc]

/-- When the response of iteration `k` carries an unexpected stop reason and
every earlier one dispatched tools, the loop returns the unexpected-signal
envelope: empty plots, but the tool-call log so far. -/
theorem agentGo_other (script : Nat → EngineResponse) :
    ∀ (k fuel it : Nat) (plots : List Str) (log : List ToolCallRecord)
      (evs : List AgentEv),
      k < fuel →
      (script (it + k)).stop = .other →
      (∀ j, j < k → (script (it + j)).stop = .tool_use) →
      (agentGo script fuel it plots log evs).2 =
        ⟨false, [], [], log ++ accLog script it k, some UNEXPECTED_MSG⟩ := by
  intro k
  induction k with
  | zero =>
    intro fuel it plots log evs hk hother htool
    obtain ⟨n, rfl⟩ : ∃ n, fuel = n + 1 := ⟨fuel - 1, by omega⟩
    have h0 : (script it).stop = .other := by simpa using hother
    simp [agentGo, h0, accLog]
  | succ m ih =>
    intro fuel it plots log evs hk hother htool
    obtain ⟨n, rfl⟩ : ∃ n, fuel = n + 1 := ⟨fuel - 1, by omega⟩
    have h0 : (script it).stop = .tool_use := by
      simpa using htool 0 (Nat.succ_pos m)
    have hother2 : (script (it + 1 + m)).stop = .other := by
      rwa [show it + 1 + m = it + (m + 1) by omega]
    have hshift : ∀ j, j < m → (script (it + 1 + j)).stop = .tool_use := by
      intro j hj
      have h2 := htool (j + 1) (by omega)
      rwa [show it + (j + 1) = it + 1 + j by omega] at h2
    simp only [agentGo, h0]
    rw [ih n (it + 1) _ _ _ (by omega) hother2 hshift]
    simp [accLog, List.append_assoc]

/-- Claim C4 as stated is false: a run whose first iteration dispatches a
`python_analysis` call producing one plot and whose second response carries
an unexpected stop reason terminates with `success = false` and the
tool-call log, but with an **empty** plots list — the plot accumulated in
the earlier iteration is dropped (line 206 of
`src/composite_agent/composite_agent.py` returns `"plots": []`). -/
theorem agent_loop_drops_plots_on_unexpected_stop :
    (analyzeAgent
        (fun i => if i = 0 then
            ⟨.tool_use, [], [⟨("python_analysis").data, ("c").data, [("p1").data]⟩]⟩
          else ⟨.other, [], []⟩) ("q").data).2 =
      ⟨false, [], [], [⟨("python_analysis").data, ("c").data, 0⟩],
        some UNEXPECTED_MSG⟩ ∧
    accPlots
        (fun i => if i = 0 then
            ⟨.tool_use, [], [⟨("python_analysis").data, ("c").data, [("p1").data]⟩]⟩
          else ⟨.other, [], []⟩) 0 1 = [("p1").data] := by
  decide

/-- Claim C4 (amended): a run terminated by exhausting the 10-iteration bound
returns `success = false`, the iteration-limit error, and all plots and
tool-call log entries accumulated in earlier iterations; a run terminated by
an unexpected engine signal returns `success = false`, a descriptive error,
and all accumulated tool-call log entries, but an empty plots list — the
accumulated plots are dropped on that path. -/
theorem agent_loop_failure_envelopes :
    ∀ (script : Nat → EngineResponse) (q : Str),
      ((∀ i, i < MAX_ITERATIONS → (script i).stop = .tool_use) →
        (analyzeAgent script q).2 =
          ⟨false, [], accPlots script 0 MAX_ITERATIONS,
            accLog script 0 MAX_ITERATIONS, some ITER_LIMIT_MSG⟩) ∧
      (∀ k, k < MAX_ITERATIONS → (script k).stop = .other →
        (∀ i, i < k → (script i).stop = .tool_use) →
        (analyzeAgent script q).2 =
          ⟨false, [], [], accLog script 0 k, some UNEXPECTED_MSG⟩) := by
  intro script q
  constructor
  · intro h
    have hgo := agentGo_all_tool script MAX_ITERATIONS 0 [] [] [AgentEv.saveUser q]
      (by intro j hj; simpa using h j hj)
    simpa [analyzeAgent] using hgo
  · intro k hk hother htool
    have hgo := agentGo_other script k MAX_ITERATIONS 0 [] [] [AgentEv.saveUser q]
      hk (by simpa using hother) (by intro j hj; simpa using htool j hj)
    simpa [analyzeAgent] using hgo

/-- Witness for `agent_loop_failure_envelopes` at concrete scripts: one that
always dispatches tools (exhausting the bound) and one whose second response
is unexpected. -/
theorem agent_loop_failure_envelopes_witness :
    (analyzeAgent (fun _ => ⟨.tool_use, [], [⟨("list_tables").data, [], []⟩]⟩)
        ("q").data).2 =
      ⟨false, [],
        accPlots (fun _ => ⟨.tool_use, [], [⟨("list_tables").data, [], []⟩]⟩) 0
          MAX_ITERATIONS,
        accLog (fun _ => ⟨.tool_use, [], [⟨("list_tables").data, [], []⟩]⟩) 0
          MAX_ITERATIONS,
        some ITER_LIMIT_MSG⟩ ∧
    (analyzeAgent
        (fun i => if i = 0 then
            ⟨.tool_use, [], [⟨("list_tables").data, [], []⟩]⟩
          else ⟨.other, [], []⟩) ("q").data).2 =
      ⟨false, [], [],
        accLog
          (fun i => if i = 0 then
              ⟨.tool_use, [], [⟨("list_tables").data, [], []⟩]⟩
            else ⟨.other, [], []⟩) 0 1,
        some UNEXPECTED_MSG⟩ :=
  ⟨(agent_loop_failure_envelopes
      (fun _ => ⟨.tool_use, [], [⟨("list_tables").data, [], []⟩]⟩) ("q").data).1
      (fun _ _ => rfl),
   (agent_loop_failure_envelopes
      (fun i => if i = 0 then
          ⟨.tool_use, [], [⟨("list_tables").data, [], []⟩]⟩
        else ⟨.other, [], []⟩) ("q").data).2 1 (by norm_num [MAX_ITERATIONS])
      (by decide) (by intro i hi; interval_cases i; rfl)⟩

end AgentCH

namespace AgentCH

/-! ## Claim C5: delimiter detection -/

/-- Position of a candidate in the source's `separators` list (4 for
non-candidates); the earliest position wins ties in Python's `max`. -/
def sepRank (ch : Char) : Nat :=
  if ch = ',' then 0 else if ch = ';' then 1 else if ch = '\t' then 2
  else if ch = '|' then 3 else 4

/-- Sample input on which the claim fails: semicolon occurs exactly 3 times
on every sampled line, comma occurs 4 times on the first line only. -/
def exDetectSample : Str :=
  ("a;b;c;d,,,,\n1;2;3;4\n1;2;3;4\n1;2;3;4\n1;2;3;4").data

/-- Claim C5 as stated is false: on a table whose semicolon counts are
`{3,3,3,3,3}` (identical across all sampled non-blank lines) while comma
appears with higher but inconsistent counts `{4,0,0,0,0}`, the detector
chooses `,`, not `;` — consistency is never preferred, only the maximum
per-line count matters. -/
theorem detect_separator_prefers_inconsistent_higher_count :
    lineCounts exDetectSample ';' = [3, 3, 3, 3, 3] ∧
    lineCounts exDetectSample ',' = [4, 0, 0, 0, 0] ∧
    detect_separator exDetectSample = ',' := by
  decide

/-- Claim C5 (amended): the detector assigns every candidate in
`{',', ';', '\t', '|'}` a score — the common per-line count when the counts
are identical across all sampled non-blank lines, otherwise the maximum
per-line count (the two coincide) — and chooses a candidate whose score is
greatest, preferring the earliest candidate in list order on ties; a
delimiter with identical counts is *not* preferred over one with
inconsistent but higher counts. -/
theorem detect_separator_argmax :
    ∀ sample : Str,
      detect_separator sample ∈ SEPARATORS ∧
      ∀ x, x ∈ SEPARATORS →
        sepScore (lineCounts sample x) ≤
          sepScore (lineCounts sample (detect_separator sample)) ∧
        (sepScore (lineCounts sample x) =
            sepScore (lineCounts sample (detect_separator sample)) →
          sepRank (detect_separator sample) ≤ sepRank x) := by
  intro sample
  by_cases hnb : (sampledNonBlank sample).isEmpty
  · have hdet : detect_separator sample = ',' := by
      simp [detect_separator, hnb, maxByValFirst]
    have hcounts : ∀ ch : Char, lineCounts sample ch = [] := by
      intro ch
      rw [lineCounts, List.isEmpty_iff.mp hnb]
      rfl
    rw [hdet]
    refine ⟨by decide, ?_⟩
    intro x hx
    rw [hcounts x, hcounts ',']
    refine ⟨le_refl _, fun _ => ?_⟩
    fin_cases hx <;> decide
  · have hdet : detect_separator sample =
        (maxPairFirst (',', sepScore (lineCounts sample ','))
          [(';', sepScore (lineCounts sample ';')),
           ('\t', sepScore (lineCounts sample '\t')),
           ('|', sepScore (lineCounts sample '|'))]).1 := by
      simp [detect_separator, hnb, SEPARATORS, maxByValFirst]
    simp only [maxPairFirst, apply_ite Prod.fst] at hdet
    split_ifs at hdet <;>
      (rw [hdet]
       refine ⟨by decide, ?_⟩
       intro x hx
       fin_cases hx <;>
         refine ⟨by omega, fun heq => ?_⟩ <;>
           first
             | decide
             | exact absurd heq (by omega))

/-- Witness for `detect_separator_argmax` at the concrete sample: the chosen
separator is a candidate and its score dominates the semicolon score. -/
theorem detect_separator_argmax_witness :
    detect_separator exDetectSample ∈ SEPARATORS ∧
    sepScore (lineCounts exDetectSample ';') ≤
      sepScore (lineCounts exDetectSample (detect_separator exDetectSample)) :=
  ⟨(detect_separator_argmax exDetectSample).1,
   ((detect_separator_argmax exDetectSample).2 ';' (by decide)).1⟩

end AgentCH

namespace AgentCH

end AgentCH

namespace AgentCH

/-! ## Claim C7: sliding window -/

/-- Strictly increasing `created_at` timestamps (the model's idealised
clock ticks once per insert). -/
def Chrono (l : List StoredMsg) : Prop :=
  l.Pairwise (fun x y => x.createdAt < y.createdAt)

/-- Sorting an already `created_at`-sorted list is the identity. -/
theorem orderAsc_of_sorted :
    ∀ l : List StoredMsg,
      l.Pairwise (fun x y => x.createdAt ≤ y.createdAt) →
      orderByCreatedAsc l = l := by
  intro l hl
  induction l with
  | nil => rfl
  | cons x t ih =>
    rw [orderByCreatedAsc, ih (List.pairwise_cons.mp hl).2]
    cases t with
    | nil => rfl
    | cons y t2 =>
      rw [insertAsc, if_pos ((List.pairwise_cons.mp hl).1 y
        (List.mem_cons_self _ _))]

/-- A head older than the whole tail has exactly the tail as newer
messages. -/
theorem newerCount_head (x : StoredMsg) (t : List StoredMsg)
    (h : ∀ m ∈ t, x.createdAt < m.createdAt) :
    newerCount (x :: t) x = t.length := by
  rw [newerCount, List.filter_cons, if_neg (by simp)]
  rw [List.filter_eq_self.mpr (fun m hm => decide_eq_true (h m hm))]

/-- Messages newer than the head do not count the head. -/
theorem newerCount_tail (x m : StoredMsg) (t : List StoredMsg)
    (h : x.createdAt < m.createdAt) :
    newerCount (x :: t) m = newerCount t m := by
  rw [newerCount, newerCount, List.filter_cons]
  simp [Nat.not_lt.mpr (Nat.le_of_lt h)]

/-- Keeping the messages with fewer than `n` strictly newer ones keeps
exactly the last `n` of a chronologically sorted list. -/
theorem chrono_filter_newer :
    ∀ (l : List StoredMsg) (n : Nat), Chrono l →
      l.filter (fun m => newerCount l m < n) = l.drop (l.length - n) := by
  intro l
  induction l with
  | nil => intro n _; simp
  | cons x t ih =>
    intro n h
    have hx : ∀ m ∈ t, x.createdAt < m.createdAt :=
      (List.pairwise_cons.mp h).1
    have ht : Chrono t := (List.pairwise_cons.mp h).2
    rw [List.filter_cons]
    rw [List.filter_congr (fun m hm => by
      rw [newerCount_tail x m t (hx m hm)])]
    rw [ih n ht, newerCount_head x t hx]
    by_cases hn : t.length < n
    · rw [if_pos (decide_eq_true hn)]
      rw [Nat.sub_eq_zero_of_le (Nat.le_of_lt hn), List.drop_zero]
      rw [show (x :: t).length - n = 0 by simp; omega, List.drop_zero]
    · rw [if_neg (by simp only [decide_eq_true_eq]; exact hn)]
      rw [show (x :: t).length - n = (t.length - n) + 1 by simp; omega]
      rw [List.drop_succ_cons]

end AgentCH

namespace AgentCH

/-- On a single-session store with strictly increasing timestamps, trimming
keeps exactly the `MAX_MESSAGES` most recent messages. -/
theorem trim_session_sorted (sid : Str) (st : ChatStorage)
    (hall : ∀ m ∈ st.msgs, m.sessionId = sid) (hchrono : Chrono st.msgs) :
    (trim_session sid st).msgs =
      st.msgs.drop (st.msgs.length - MAX_MESSAGES) := by
  rw [trim_session]
  simp only
  have hsess : sessionMsgs sid st = st.msgs := by
    rw [sessionMsgs]
    exact List.filter_eq_self.mpr (fun m hm => decide_eq_true (hall m hm))
  have hcongr : st.msgs.filter
      (fun m => !(decide (m.sessionId = sid)) ||
        decide (newerCount (sessionMsgs sid st) m < MAX_MESSAGES)) =
      st.msgs.filter (fun m => decide (newerCount st.msgs m < MAX_MESSAGES)) :=
    List.filter_congr (fun m hm => by rw [hsess]; simp [hall m hm])
  rw [hcongr]
  exact chrono_filter_newer st.msgs MAX_MESSAGES hchrono

/-- Effect of one save on the message table: the new row is appended with a
fresh id and the window is re-trimmed to the `MAX_MESSAGES` most recent. -/
theorem save_message_step (sid : Str) (p : Role × Str) (now : Nat)
    (st : ChatStorage)
    (hall : ∀ m ∈ st.msgs, m.sessionId = sid) (hchrono : Chrono st.msgs)
    (hlt : ∀ m ∈ st.msgs, m.createdAt < now) :
    (save_message now sid p st).msgs =
      (st.msgs ++
          [(⟨st.nextId, sid, p.1, (storedPair p).2, now⟩ : StoredMsg)]).drop
        (st.msgs.length + 1 - MAX_MESSAGES) ∧
    (save_message now sid p st).nextId = st.nextId + 1 := by
  have key : ∀ (role : Role) (content : Str),
      (trim_session sid (insertMsg now sid role content
          (ensure_session now sid st))).msgs =
        (st.msgs ++
            [(⟨st.nextId, sid, role, content, now⟩ : StoredMsg)]).drop
          (st.msgs.length + 1 - MAX_MESSAGES) := by
    intro role content
    have hmsgs : (insertMsg now sid role content
        (ensure_session now sid st)).msgs =
          st.msgs ++ [(⟨st.nextId, sid, role, content, now⟩ : StoredMsg)] := rfl
    have hall2 : ∀ m ∈ st.msgs ++ [(⟨st.nextId, sid, role, content, now⟩ :
        StoredMsg)], m.sessionId = sid := by
      intro m hm
      rcases List.mem_append.mp hm with hm | hm
      · exact hall m hm
      · rcases List.mem_singleton.mp hm with rfl
        rfl
    have hchrono2 : Chrono (st.msgs ++
        [(⟨st.nextId, sid, role, content, now⟩ : StoredMsg)]) := by
      rw [Chrono, List.pairwise_append]
      refine ⟨hchrono, List.pairwise_singleton _ _, ?_⟩
      intro x hx y hy
      rcases List.mem_singleton.mp hy with rfl
      exact hlt x hx
    have := trim_session_sorted sid
      (insertMsg now sid role content (ensure_session now sid st))
      (by rw [hmsgs]; exact hall2) (by rw [Chrono, hmsgs]; exact hchrono2)
    rw [hmsgs] at this
    rw [this]
    simp
  obtain ⟨r, txt⟩ := p
  cases r
  · exact ⟨key .user txt, rfl⟩
  · exact ⟨key .assistant (truncAssistant txt), rfl⟩

end AgentCH

namespace AgentCH

/-- The rows a sequence of saves produces: ids from `n0`, timestamps from
`t0`, contents as stored (assistant texts truncated). -/
def mkMsgs (sid : Str) : Nat → Nat → List (Role × Str) → List StoredMsg
  | _, _, [] => []
  | t0, n0, p :: rest =>
    ⟨n0, sid, p.1, (storedPair p).2, t0⟩ :: mkMsgs sid (t0 + 1) (n0 + 1) rest

/-- Lemma: `mkMsgs` produces one row per saved message. -/
theorem mkMsgs_length (sid : Str) :
    ∀ (items : List (Role × Str)) (t0 n0 : Nat),
      (mkMsgs sid t0 n0 items).length = items.length := by
  intro items
  induction items with
  | nil => intro t0 n0; rfl
  | cons p rest ih => intro t0 n0; simp [mkMsgs, ih]

/-- All produced rows belong to the session. -/
theorem mkMsgs_sid (sid : Str) :
    ∀ (items : List (Role × Str)) (t0 n0 : Nat),
      ∀ m ∈ mkMsgs sid t0 n0 items, m.sessionId = sid := by
  intro items
  induction items with
  | nil => intro t0 n0 m hm; cases hm
  | cons p rest ih =>
    intro t0 n0 m hm
    rcases List.mem_cons.mp hm with rfl | hm
    · rfl
    · exact ih (t0 + 1) (n0 + 1) m hm

/-- Produced timestamps start at `t0`. -/
theorem mkMsgs_created_ge (sid : Str) :
    ∀ (items : List (Role × Str)) (t0 n0 : Nat),
      ∀ m ∈ mkMsgs sid t0 n0 items, t0 ≤ m.createdAt := by
  intro items
  induction items with
  | nil => intro t0 n0 m hm; cases hm
  | cons p rest ih =>
    intro t0 n0 m hm
    rcases List.mem_cons.mp hm with rfl | hm
    · exact le_refl _
    · exact Nat.le_of_succ_le (ih (t0 + 1) (n0 + 1) m hm)

/-- Produced timestamps are strictly increasing. -/
theorem mkMsgs_chrono (sid : Str) :
    ∀ (items : List (Role × Str)) (t0 n0 : Nat),
      Chrono (mkMsgs sid t0 n0 items) := by
  intro items
  induction items with
  | nil => intro t0 n0; exact List.Pairwise.nil
  | cons p rest ih =>
    intro t0 n0
    rw [mkMsgs, Chrono, List.pairwise_cons]
    exact ⟨fun m hm => Nat.lt_of_succ_le (mkMsgs_created_ge sid rest (t0 + 1)
      (n0 + 1) m hm), ih (t0 + 1) (n0 + 1)⟩

/-- Projecting rows back to `(role, content)` pairs recovers the stored
pairs. -/
theorem mkMsgs_map (sid : Str) :
    ∀ (items : List (Role × Str)) (t0 n0 : Nat),
      (mkMsgs sid t0 n0 items).map (fun m => (m.role, m.content)) =
        items.map storedPair := by
  intro items
  induction items with
  | nil => intro t0 n0; rfl
  | cons p rest ih =>
    intro t0 n0
    rw [mkMsgs, List.map_cons, List.map_cons, ih (t0 + 1) (n0 + 1)]
    obtain ⟨r, txt⟩ := p
    cases r <;> rfl

/-- Running a sequence of saves on an in-window single-session store leaves
the last `MAX_MESSAGES` of the full append sequence. -/
theorem insert_messages_msgs (sid : Str) :
    ∀ (items : List (Role × Str)) (st : ChatStorage) (t0 : Nat),
      (∀ m ∈ st.msgs, m.sessionId = sid) →
      Chrono st.msgs →
      (∀ m ∈ st.msgs, m.createdAt < t0) →
      st.msgs.length ≤ MAX_MESSAGES →
      (insert_messages sid t0 items st).msgs =
        (st.msgs ++ mkMsgs sid t0 st.nextId items).drop
          (st.msgs.length + items.length - MAX_MESSAGES) := by
  intro items
  induction items with
  | nil =>
    intro st t0 hall hchrono hlt hlen
    rw [insert_messages, mkMsgs]
    rw [List.append_nil, Nat.sub_eq_zero_of_le (by simpa using hlen),
      List.drop_zero]
  | cons p rest ih =>
    intro st t0 hall hchrono hlt hlen
    obtain ⟨hstep, hnext⟩ := save_message_step sid p t0 st hall hchrono hlt
    have hall2 : ∀ m ∈ (save_message t0 sid p st).msgs, m.sessionId = sid := by
      rw [hstep]
      intro m hm
      rcases List.mem_append.mp (List.mem_of_mem_drop hm) with hm2 | hm2
      · exact hall m hm2
      · rcases List.mem_singleton.mp hm2 with rfl
        rfl
    have happchrono : Chrono (st.msgs ++
        [(⟨st.nextId, sid, p.1, (storedPair p).2, t0⟩ : StoredMsg)]) := by
      rw [Chrono, List.pairwise_append]
      refine ⟨hchrono, List.pairwise_singleton _ _, ?_⟩
      intro x hx y hy
      rcases List.mem_singleton.mp hy with rfl
      exact hlt x hx
    have hchrono2 : Chrono (save_message t0 sid p st).msgs := by
      rw [hstep]
      exact happchrono.sublist (List.drop_sublist _ _)
    have hlt2 : ∀ m ∈ (save_message t0 sid p st).msgs, m.createdAt < t0 + 1 := by
      rw [hstep]
      intro m hm
      rcases List.mem_append.mp (List.mem_of_mem_drop hm) with hm2 | hm2
      · exact Nat.lt_succ_of_lt (hlt m hm2)
      · rcases List.mem_singleton.mp hm2 with rfl
        exact Nat.lt_succ_self _
    have hlen2 : (save_message t0 sid p st).msgs.length ≤ MAX_MESSAGES := by
      rw [hstep, List.length_drop]
      simp
      omega
    rw [insert_messages]
    rw [ih (save_message t0 sid p st) (t0 + 1) hall2 hchrono2 hlt2 hlen2]
    have hlen3 : (save_message t0 sid p st).msgs.length =
        st.msgs.length + 1 - (st.msgs.length + 1 - MAX_MESSAGES) := by
      rw [hstep, List.length_drop]
      simp
    rw [hlen3, hstep, hnext]
    rw [← @List.drop_append_of_le_length _ _
      (mkMsgs sid (t0 + 1) (st.nextId + 1) rest) _ (by simp)]
    rw [List.drop_drop]
    rw [mkMsgs]
    have harr : st.msgs ++
        (⟨st.nextId, sid, p.1, (storedPair p).2, t0⟩ : StoredMsg) ::
          mkMsgs sid (t0 + 1) (st.nextId + 1) rest =
        (st.msgs ++ [(⟨st.nextId, sid, p.1, (storedPair p).2, t0⟩ :
          StoredMsg)]) ++ mkMsgs sid (t0 + 1) (st.nextId + 1) rest := by
      simp
    rw [harr]
    congr 1
    simp
    omega

end AgentCH

namespace AgentCH

/-- Claim C7: starting from a fresh store, after any sequence of message
insertions into a session the store retains at most the `MAX_MESSAGES = 20`
most recent messages, and `get_history` returns exactly those messages —
the last `min(n, 20)` of the inserted sequence, oldest first, with relative
order preserved (assistant texts truncated as stored). -/
theorem chat_history_sliding_window :
    ∀ (sid : Str) (items : List (Role × Str)) (t0 : Nat),
      get_history sid (insert_messages sid t0 items emptyStorage) =
        (items.map storedPair).drop (items.length - MAX_MESSAGES) := by
  intro sid items t0
  have hmain := insert_messages_msgs sid items emptyStorage t0
    (by intro m hm; cases hm) List.Pairwise.nil (by intro m hm; cases hm)
    (by simp [emptyStorage])
  have hmain2 : (insert_messages sid t0 items emptyStorage).msgs =
      (mkMsgs sid t0 0 items).drop (items.length - MAX_MESSAGES) := by
    rw [hmain]
    simp [emptyStorage]
  rw [get_history]
  have hsess : sessionMsgs sid (insert_messages sid t0 items emptyStorage) =
      (mkMsgs sid t0 0 items).drop (items.length - MAX_MESSAGES) := by
    rw [sessionMsgs, hmain2]
    exact List.filter_eq_self.mpr (fun m hm => decide_eq_true
      (mkMsgs_sid sid items t0 0 m (List.mem_of_mem_drop hm)))
  rw [hsess]
  have hchrono : ((mkMsgs sid t0 0 items).drop
      (items.length - MAX_MESSAGES)).Pairwise
        (fun x y => x.createdAt ≤ y.createdAt) :=
    ((mkMsgs_chrono sid items t0 0).sublist (List.drop_sublist _ _)).imp
      (fun h => le_of_lt h)
  rw [orderAsc_of_sorted _ hchrono]
  rw [List.map_drop]
  rw [mkMsgs_map]

end AgentCH

namespace AgentCH

/-! ## Claim C8: session expiry sweep

Method `cleanup_expired` (`src/composite_agent/chat_storage.py`, lines
119–129) computes
`cutoff = (datetime.now(timezone.utc) - timedelta(hours=session_ttl_hours)).isoformat()`
— a Python string of the form `YYYY-MM-DDTHH:MM:SS.ffffff+00:00` — and runs
`SELECT session_id FROM sessions WHERE last_activity < ?` against the TEXT
column `last_activity`, which SQLite's `datetime('now')` writes as
`YYYY-MM-DD HH:MM:SS`.  SQLite compares TEXT under BINARY collation, i.e.
byte-wise, which on these ASCII strings is codepoint-lexicographic order.
The embedding below keeps both renderings and that comparison; the sweep is
modelled on the two columns it reads. -/

/-- SQLite BINARY comparison of TEXT values (byte order; codepoint order on
the ASCII strings compared here). -/
def strLt : Str → Str → Bool
  | [], [] => false
  | [], _ :: _ => true
  | _ :: _, [] => false
  | a :: s, b :: t =>
    if a.toNat < b.toNat then true
    else if b.toNat < a.toNat then false
    else strLt s t

/-- Zero-padded decimal rendering to (at least) `k` digits. -/
def padZeros (k n : Nat) : Str :=
  let d := (Nat.repr n).data
  List.replicate (k - d.length) '0' ++ d

/-- A UTC wall-clock instant. -/
structure DateTimeUTC where
  year : Nat
  month : Nat
  day : Nat
  hour : Nat
  minute : Nat
  second : Nat
deriving DecidableEq

/-- The `YYYY-MM-DD` date part shared by both timestamp renderings. -/
def datePart (t : DateTimeUTC) : Str :=
  padZeros 4 t.year ++ '-' :: padZeros 2 t.month ++ '-' :: padZeros 2 t.day

/-- The `HH:MM:SS` time part shared by both timestamp renderings. -/
def timePart (t : DateTimeUTC) : Str :=
  padZeros 2 t.hour ++ ':' :: padZeros 2 t.minute ++ ':' :: padZeros 2 t.second

/-- SQLite `datetime('now')` rendering: `YYYY-MM-DD HH:MM:SS`, as written
into the `last_activity` column. -/
def renderSqlite (t : DateTimeUTC) : Str := datePart t ++ ' ' :: timePart t

/-- Python `datetime.isoformat()` of an aware UTC instant with a non-zero
microsecond field: `YYYY-MM-DDTHH:MM:SS.ffffff+00:00`, the cutoff string. -/
def renderIso (t : DateTimeUTC) (micro : Nat) : Str :=
  datePart t ++
    'T' :: (timePart t ++ '.' :: padZeros 6 micro ++ ("+00:00").data)

/-- Minute count within one month, for elapsed-time arithmetic between two
instants of the same month. -/
def minutesInMonth (day hour minute : Nat) : Nat :=
  day * 1440 + hour * 60 + minute

/-- One `sessions` row as the sweep reads it: the id and the TEXT
`last_activity`. -/
structure SessionRowText where
  sessionId : Str
  lastActivity : Str
deriving DecidableEq

/-- The storage state the sweep operates on: session rows and message rows
(only a message's `session_id` matters to the sweep). -/
structure StorageText where
  sessions : List SessionRowText
  msgs : List StoredMsg
deriving DecidableEq

/-- Method `cleanup_expired` (lines 119–129): collect the ids of the
sessions whose `last_activity` TEXT compares below the isoformat `cutoff`
string, then delete their messages and their session rows. -/
def cleanup_expired (cutoff : Str) (st : StorageText) : StorageText :=
  let expired :=
    (st.sessions.filter (fun r => strLt r.lastActivity cutoff)).map
      (fun r => r.sessionId)
  ⟨st.sessions.filter (fun r => !(expired.contains r.sessionId)),
   st.msgs.filter (fun m => !(expired.contains m.sessionId))⟩

/-- On a shared prefix, BINARY comparison is decided by the first differing
character. -/
theorem strLt_first_diff :
    ∀ (pre : Str) (a b : Char) (s t : Str), a.toNat < b.toNat →
      strLt (pre ++ a :: s) (pre ++ b :: t) = true := by
  intro pre
  induction pre with
  | nil =>
    intro a b s t h
    simp [strLt, h]
  | cons c cs ih =>
    intro a b s t h
    simp [strLt, ih a b s t h]

/-- Root cause of the bug behind claim C8: any `datetime('now')` timestamp
whose calendar date equals the cutoff's date compares below the isoformat
cutoff, whatever the two times of day, because the space (0x20) of the
SQLite format sorts below the `T` (0x54) of the isoformat at the first
differing byte. -/
theorem sqlite_same_date_below_iso
    (y mo d h1 mi1 s1 h2 mi2 s2 micro : Nat) :
    strLt (renderSqlite ⟨y, mo, d, h1, mi1, s1⟩)
      (renderIso ⟨y, mo, d, h2, mi2, s2⟩ micro) = true := by
  have hdate : datePart ⟨y, mo, d, h2, mi2, s2⟩ =
      datePart ⟨y, mo, d, h1, mi1, s1⟩ := rfl
  rw [renderSqlite, renderIso, hdate]
  exact strLt_first_diff _ ' ' 'T' _ _ (by decide)

/-- Claim C8 is right and the code is wrong: with the sweep running at
2025-10-12 13:05:00 UTC, the cutoff string is the isoformat rendering of
2025-10-11 13:05:00.123456 UTC (now minus the 24-hour TTL, witnessed by the
minute arithmetic below), and a session last active at 2025-10-11 20:00:00
UTC — idle 1025 minutes, well within the TTL — is nevertheless deleted
together with its message, because its SQLite timestamp shares the cutoff's
calendar date and the space sorts below the `T`.  This contradicts the
method's own docstring (delete sessions older than the TTL). -/
theorem cleanup_expired_deletes_fresh_session :
    renderIso ⟨2025, 10, 11, 13, 5, 0⟩ 123456 =
      ("2025-10-11T13:05:00.123456+00:00").data ∧
    renderSqlite ⟨2025, 10, 11, 20, 0, 0⟩ = ("2025-10-11 20:00:00").data ∧
    minutesInMonth 12 13 5 - 24 * 60 = minutesInMonth 11 13 5 ∧
    minutesInMonth 12 13 5 - minutesInMonth 11 20 0 = 1025 ∧
    1025 < SESSION_TTL_HOURS * 60 ∧
    cleanup_expired (("2025-10-11T13:05:00.123456+00:00").data)
        ⟨[⟨("s").data, ("2025-10-11 20:00:00").data⟩],
         [⟨0, ("s").data, .user, ("x").data, 0⟩]⟩ =
      ⟨[], []⟩ := by
  decide

end AgentCH
